import Mathlib

/-!
Verification of the suggestion aggregation / evaluation core of the Annif fork.

Shallow embedding of the Python sources:
  * `annif/backend/transformer.py`  (`BaseTransformerBackend.run_pipeline`, `_suggest_batch`)
  * `annif/backend/ehribert.py`     (`EhriBertBackend.run_pipeline`)
  * `annif/backend/xlmroberta.py`   (`XlmRobertaBackend._suggest`)
  * `annif/backend/mistral.py`      (`MistralBackend._suggest`)
  * `annif/backend/ensemble.py`     (`EnsembleBackend._analyze_with_sources`)
  * `annif/corpus/document.py`      (`DocumentFile._parse_tsv_line`)
  * `annif/cli.py`                  (`generate_filter_batches`, `run_optimize`)

Scores are embedded as rationals; machine floats of the source are treated as exact
values, which is faithful for every property proved here (comparisons and the
grid constants 0.05, 0.9, ... are exact in both representations for the inputs used).
External ML pipelines (`self._zs`, the fine-tuned model, the HTTP session) are
parameters of the embedded functions, exactly as they are opaque callables in the code.
-/

namespace Annif

/-- A scored candidate subject, as in `annif.suggestion.SubjectSuggestion`:
a subject id paired with a score. -/
structure SubjectSuggestion where
  subject_id : Nat
  score : ℚ
deriving DecidableEq, Repr

/-- A raw pipeline triple `(concept_id, concept_text, confidence)` as returned by
`run_pipeline` in `transformer.py` / `ehribert.py` / `xlmroberta.py`. -/
abbrev Triple := String × String × ℚ

/-! ## `annif/backend/transformer.py` -/

/-- Embedding of the inner `suggestions(result)` function of
`BaseTransformerBackend.run_pipeline` (transformer.py lines 39-42):
take the first `min(num, num_results)` candidates of one zero-shot result
(a ranked list of `(label, score)` pairs) and keep those with score strictly
above the threshold, translating each label through `terms_rev`.
`List.take num` is `min num (length)` indices, as in the Python `range`. -/
def transformerSuggestions (termsRev : String → String) (cand : List (String × ℚ))
    (num : Nat) (threshold : ℚ) : List Triple :=
  ((cand.take num).filter (fun p => threshold < p.2)).map
    (fun p => (termsRev p.1, p.1, p.2))

/-- Embedding of `BaseTransformerBackend.run_pipeline` (transformer.py lines 23-44):
empty input short-circuits to `[]`; otherwise the zero-shot pipeline `zs` is run on
the whole batch and `suggestions` is applied to each per-text result. -/
def run_pipeline (zs : List String → List (List (String × ℚ))) (termsRev : String → String)
    (texts : List String) (num : Nat) (threshold : ℚ) : List (List Triple) :=
  if texts.length = 0 then []
  else (zs texts).map (fun r => transformerSuggestions termsRev r num threshold)

/-- Python `list.insert(i, x)`: insert `x` before position `i`
(appending when `i` is past the end). -/
def pyInsert (l : List α) (i : Nat) (x : α) : List α :=
  l.take i ++ x :: l.drop i

/-- A text counts as empty in `_suggest_batch` when `text.strip() == ""`,
i.e. when every character is whitespace. -/
def isBlank (s : String) : Bool := s.toList.all (fun c => c.isWhitespace)

/-- The reinsertion loop of `_suggest_batch` (transformer.py lines 68-70):
`for i in range(len(texts)): if i not in non_empty_indices: batch.insert(i, [])`.
Since `i` ranges over all positions, `i ∉ non_empty_indices` holds exactly when
`texts[i]` is blank. -/
def insertEmpty (texts : List String) (batch : List (List SubjectSuggestion)) :
    List (List SubjectSuggestion) :=
  (List.range texts.length).foldl
    (fun b i => if isBlank (texts.getD i "") then pyInsert b i [] else b) batch

/-- Embedding of `SubjectSuggestion(subject_id=self.project.subjects.by_uri(uri), score=score)`
applied to every `(uri, _, score)` of one per-text suggestion list. -/
def makeSuggestions (byUri : String → Nat) (sugs : List Triple) : List SubjectSuggestion :=
  sugs.map (fun u => ⟨byUri u.1, u.2.2⟩)

/-- Modelled from the spec: `SuggestionBatch.from_sequence` (module `annif.suggestion`
is not among the sources). Per the spec a Suggestion Batch is an ordered sequence of
Suggestion Sets, one per input document, preserved 1:1; the constructor is therefore
modelled as preserving the per-document structure unchanged. -/
def fromSequence (batch : List (List SubjectSuggestion)) : List (List SubjectSuggestion) :=
  batch

/-- Embedding of `BaseTransformerBackend._suggest_batch` (transformer.py lines 46-75).
`rp` stands for the already-parameterised `self.run_pipeline(·, num=num, params=params)`.
The empty-batch check precedes everything else (in particular the `limit` parsing);
blank texts are removed before the pipeline call and empty Suggestion Sets are
reinserted at their positions afterwards. -/
def suggest_batch (rp : List String → List (List Triple)) (byUri : String → Nat)
    (texts : List String) : List (List SubjectSuggestion) :=
  if texts.length = 0 then []
  else
    let nonEmpty := texts.filter (fun t => ¬ isBlank t)
    let results := rp nonEmpty
    let batch := results.map (makeSuggestions byUri)
    fromSequence (insertEmpty texts batch)

/-! ## `annif/backend/ehribert.py` -/

/-- Stable insertion of a triple into a list descending by score: the new element
goes before the first strictly smaller score, hence after existing equals. -/
def insertDesc (x : Triple) : List Triple → List Triple
  | [] => [x]
  | y :: ys => if y.2.2 < x.2.2 then x :: y :: ys else y :: insertDesc x ys

/-- Stable sort by descending score, the embedding of Python
`sorted(l, key=lambda x: x[2], reverse=True)` (both are stable). -/
def sortDesc : List Triple → List Triple
  | [] => []
  | x :: xs => insertDesc x (sortDesc xs)

/-- Embedding of the per-text body of `EhriBertBackend.run_pipeline`
(ehribert.py lines 60-84) for one text, given the sigmoid probabilities `probs`
of that text. `predictions[np.where(probs >= threshold)] = 1` keeps exactly the
indices with `probs[idx] >= threshold` (NON-strict comparison); each kept index is
turned into `(uri, pref_label, actual_score)` in index order, then the list is
sorted by descending score and truncated to `num`. -/
def ehribertPredictOne (id2label : Nat → String) (labelTexts labelToUri : String → String)
    (probs : List ℚ) (threshold : ℚ) (num : Nat) : List Triple :=
  let sorted_predictions :=
    (probs.enum.filter (fun p => threshold ≤ p.2)).map
      (fun p => (labelToUri (id2label p.1), labelTexts (id2label p.1), p.2))
  (sortDesc sorted_predictions).take num

/-- Embedding of `EhriBertBackend.run_pipeline` (ehribert.py lines 55-85):
the loop body is run once per text; `probsOf` stands for the tokenizer + model +
sigmoid computation producing the per-index probabilities of one text. -/
def ehribert_run_pipeline (id2label : Nat → String) (labelTexts labelToUri : String → String)
    (probsOf : String → List ℚ) (texts : List String) (threshold : ℚ) (num : Nat) :
    List (List Triple) :=
  texts.map (fun t => ehribertPredictOne id2label labelTexts labelToUri (probsOf t) threshold num)

/-! ## `annif/backend/xlmroberta.py` -/

/-- Embedding of `XlmRobertaBackend._suggest` (xlmroberta.py lines 40-52):
an empty text returns `[]` before the pipeline is invoked; otherwise the
pipeline triples are converted to `SubjectSuggestion`s. -/
def xlm_suggest (rp : String → List Triple) (byUri : String → Nat) (text : String) :
    List SubjectSuggestion :=
  if text.length = 0 then []
  else makeSuggestions byUri (rp text)

/-! ## `annif/backend/mistral.py` -/

/-- The parsed JSON body of a Mistral chat completion, restricted to the fields
read by `MistralBackend._suggest`: the `message.content` string of each choice. -/
structure MistralOut where
  choices : List String

/-- Outcome of `self._session.post(...)` followed by `response.raise_for_status()`
and `response.json()` in `MistralBackend._suggest` (mistral.py lines 81-88):
either some `requests.exceptions.RequestException` was raised by the request or
the status check (`requestError`), or a response arrived whose body either is
not valid JSON (`response none`) or parses to `out` (`response (some out)`). -/
inductive MistralHttp where
  | requestError
  | response (body : Option MistralOut)

/-- Embedding of `MistralBackend._suggest` after the prompt is built
(mistral.py lines 81-117). A value `.error e` models an exception propagating out
of `_suggest`; `.ok l` models a normal return of the suggestion list `l`.
  * a `RequestException` is caught: warning, `return []`;
  * `out = response.json()` sits OUTSIDE the `try` block, so a body that is not
    valid JSON raises `requests.exceptions.JSONDecodeError` to the caller;
  * the truthiness test on the choice list: an empty choice list falls through to the final
    `return []` (warning "No suggestions");
  * `json.loads` of the first choice content (`parse`, `none` = `JSONDecodeError`)
    is caught: warning, `return []`;
  * otherwise each returned label found in `terms_rev` becomes a suggestion with
    the dummy score `0.9 - i * 0.05` at its enumeration index `i`. -/
def mistral_suggest (termsRev : String → Option String) (byUri : String → Nat)
    (parse : String → Option (List String)) (http : MistralHttp) :
    Except String (List SubjectSuggestion) :=
  match http with
  | .requestError => .ok []
  | .response none => .error "requests.exceptions.JSONDecodeError"
  | .response (some out) =>
    if out.choices ≠ [] then
      match parse (out.choices.headD "") with
      | none => .ok []
      | some textLabels =>
        .ok (((textLabels.enum.filter (fun p => (termsRev p.2).isSome)).map
          (fun p => SubjectSuggestion.mk (byUri ((termsRev p.2).getD ""))
            (9/10 - (p.1 : ℚ) * (5/100)))))
    else .ok []

/-! ## `annif/corpus/document.py` -/

/-- A parsed document as produced by `DocumentCorpus._create_document`:
text plus subject URIs (labels stay empty on this path). -/
structure ParsedDocument where
  text : String
  uris : List String
  labels : List String
deriving DecidableEq, Repr

/-- Embedding of `DocumentFile._parse_tsv_line` (document.py lines 69-80).
Returns the yielded document (if any) together with whether a warning was logged.
A line containing a tab is split at the FIRST tab (`split('\t', maxsplit=1)`),
the text part is truncated to `text_limit` (`none` = no limit), and the remainder
is whitespace-split into URIs, each passed through `cleanup_uri`; a line without
a tab (blank lines included) yields nothing and logs a warning. The function is
total: no line makes it raise. -/
def parse_tsv_line (cleanupUri : String → String) (textLimit : Option Nat) (line : String) :
    Option ParsedDocument × Bool :=
  if line.toList.contains '\t' then
    let text := (line.toList.takeWhile (fun c => c ≠ '\t')).asString
    let uris := (((line.toList.dropWhile (fun c => c ≠ '\t')).drop 1)).asString
    let text := match textLimit with
      | none => text
      | some n => (text.toList.take n).asString
    let subjects :=
      ((((uris.toList.splitOnP (fun c => c.isWhitespace))).map List.asString).filter
        (fun w => w ≠ "")).map cleanupUri
    (some ⟨text, subjects, []⟩, false)
  else
    (none, true)

/-- Embedding of the `documents` generator of `DocumentFile` (document.py lines 59-67)
applied to an already-split list of lines: `yield from self._parse_tsv_line(line)`
for each line in order, so each line contributes its parsed document or nothing. -/
def documentFileDocuments (cleanupUri : String → String) (textLimit : Option Nat)
    (lines : List String) : List ParsedDocument :=
  lines.flatMap (fun l => ((parse_tsv_line cleanupUri textLimit l).1).toList)

/-! ## `annif/backend/ensemble.py` -/

/-- Embedding of `annif.hit.WeightedHits` as used by the ensemble backend:
a hit list together with the relative weight of its source. -/
structure WeightedHits where
  hits : List SubjectSuggestion
  weight : ℚ
deriving DecidableEq, Repr

/-- Embedding of `EnsembleBackend._analyze_with_sources` (ensemble.py lines 14-25):
for each `(project_id, weight)` source, the hits of that project are filtered by
`hit.score > 0.0` (strict) and wrapped with the weight; merging
(`annif.util.merge_hits`) happens only downstream on this output. -/
def analyze_with_sources (analyze : String → List SubjectSuggestion)
    (sources : List (String × ℚ)) : List WeightedHits :=
  sources.map (fun s => ⟨(analyze s.1).filter (fun h => 0 < h.score), s.2⟩)

/-! ## `annif/cli.py` — `generate_filter_batches` and `run_optimize` -/

/-- The configuration of one `annif.hit.HitFilter(limit, threshold)` instance. -/
structure HitFilterCfg where
  limit : Nat
  threshold : ℚ
deriving DecidableEq, Repr

/-- Modelled from the spec: `annif.eval.EvaluationBatch` (module `annif.eval` is not
among the sources). Per the spec an Evaluation Accumulator is mutable running state
created fresh per (limit, threshold) pair; only its fresh construction is needed
here, so it is modelled as an (empty) list of accumulated
(predicted, gold) document contributions. -/
structure EvaluationBatch where
  contributions : List (List SubjectSuggestion × List Nat)
deriving DecidableEq, Repr

/-- Embedding of `generate_filter_batches` (cli.py lines 47-54): an ordered mapping
(kept as an insertion-ordered association list, like `collections.OrderedDict`)
from each `(limit, threshold)` pair with `limit ∈ range(1, 16)` and
`threshold = i * 0.05, i ∈ range(20)` to a fresh `HitFilter` and a fresh
`EvaluationBatch`, limits outermost. -/
def generate_filter_batches : List ((Nat × ℚ) × (HitFilterCfg × EvaluationBatch)) :=
  (List.range' 1 15).flatMap (fun limit =>
    (List.range 20).map (fun i : Nat =>
      ((limit, (i : ℚ) * (5/100)), (⟨limit, (i : ℚ) * (5/100)⟩, ⟨[]⟩))))

/-- The iteration order of `filter_batches` in `run_optimize`: the keys of the
ordered dict, in insertion order. -/
def gridParams : List (Nat × ℚ) := generate_filter_batches.map (fun e => e.1)

/-- Lookup in `best_scores = collections.defaultdict(float)`: a missing metric
reads as `0.0`. -/
def lookupScore (l : List (String × ℚ)) (k : String) : ℚ :=
  (((l.find? (fun p => p.1 = k)).map (fun p => p.2)).getD 0)

/-- Lookup in the plain dict `best_params`: a missing metric has no value
(accessing it raises `KeyError`). -/
def lookupParams (l : List (String × (Nat × ℚ))) (k : String) : Option (Nat × ℚ) :=
  (l.find? (fun p => p.1 = k)).map (fun p => p.2)

/-- Python dict assignment `d[k] = v` on an insertion-ordered association list:
overwrite the existing entry for `k` in place, else append. -/
def setKey (l : List (String × α)) (k : String) (v : α) : List (String × α) :=
  if (l.find? (fun p => p.1 = k)).isSome then
    l.map (fun p => if p.1 = k then (k, v) else p)
  else l ++ [(k, v)]

/-- The running `(best_scores, best_params)` state of `run_optimize`. -/
abbrev OptState := List (String × ℚ) × List (String × (Nat × ℚ))

/-- One iteration of the inner loop of `run_optimize` (cli.py lines 297-300):
`if score > best_scores[metric]: best_scores[metric] = score; best_params[metric] = params`. -/
def optimizeStep (params : Nat × ℚ) (st : OptState) (ms : String × ℚ) : OptState :=
  if lookupScore st.1 ms.1 < ms.2 then
    (setKey st.1 ms.1 ms.2, setKey st.2 ms.1 params)
  else st

/-- Embedding of the best-score selection loops of `run_optimize`
(cli.py lines 291-300): fold over `filter_batches.items()` in insertion order,
and within each pair over the `(metric, score)` items of the `results()` dict of
that accumulator (given abstractly as `res`), starting from an empty defaultdict /
dict pair. -/
def optimizeFold (res : Nat × ℚ → List (String × ℚ)) : OptState :=
  gridParams.foldl (fun st params => (res params).foldl (optimizeStep params) st) ([], [])

/-- The five metrics of the best-per-metric summary block (cli.py lines 311-315). -/
def fiveMetrics : List String :=
  ["Precision (per document average)", "Recall (per document average)",
   "F1 score (per document average)", "NDCG@5", "NDCG@10"]

/-- Embedding of the summary loop of `run_optimize` (cli.py lines 310-321):
for each of the five metrics, `best_scores[metric]` reads with default `0.0`
but `best_params[metric]` raises `KeyError` when the metric was never selected;
the loop aborts at the first such metric (`.error`), otherwise it produces the
printed `(metric, best score, limit, threshold)` rows. -/
def printSummary (st : OptState) : Except String (List (String × ℚ × Nat × ℚ)) :=
  fiveMetrics.mapM (fun m =>
    match lookupParams st.2 m with
    | none => .error ("KeyError: " ++ m)
    | some p => .ok (m, lookupScore st.1 m, p.1, p.2))

/-- The `(best_scores[m], best_params.get(m))` view of the optimizer state for one
metric `m`. -/
def projM (st : OptState) (m : String) : ℚ × Option (Nat × ℚ) :=
  (lookupScore st.1 m, lookupParams st.2 m)

/-- The effect of one `run_optimize` update on the projection for a single metric:
a strict-improvement conditional update. -/
def stepMax (a : ℚ × Option (Nat × ℚ)) (x : (Nat × ℚ) × ℚ) : ℚ × Option (Nat × ℚ) :=
  if a.1 < x.2 then (x.2, some x.1) else a

/-- Running best value of the scores seen so far (as folded by the defaultdict
comparison of `run_optimize`). -/
def bestVal (a : ℚ) (l : List ((Nat × ℚ) × ℚ)) : ℚ :=
  l.foldl (fun s x => max s x.2) a

/-- A concrete results function for exercising the optimizer: metric NDCG@5
scores 1 on every pair with limit 2 and 0 elsewhere. -/
def resW : Nat × ℚ → List (String × ℚ) :=
  fun q => [("NDCG@5", if q.1 = 2 then (1 : ℚ) else 0)]

/-- The per-pair score reported by `resW` for NDCG@5. -/
def scoreW : Nat × ℚ → ℚ := fun q => if q.1 = 2 then (1 : ℚ) else 0

/-! ## Helper lemmas about the stable descending sort -/

theorem mem_insertDesc {x y : Triple} {l : List Triple} :
    x ∈ insertDesc y l ↔ x = y ∨ x ∈ l := by
  induction l with
  | nil => simp [insertDesc]
  | cons z zs ih =>
    by_cases h : z.2.2 < y.2.2
    · simp [insertDesc, h]
    · simp only [insertDesc, if_neg h, List.mem_cons, ih]
      tauto

theorem mem_sortDesc {x : Triple} {l : List Triple} : x ∈ sortDesc l ↔ x ∈ l := by
  induction l with
  | nil => simp [sortDesc]
  | cons z zs ih => simp [sortDesc, mem_insertDesc, ih]

theorem sorted_insertDesc {y : Triple} {l : List Triple}
    (h : l.Pairwise (fun a b => b.2.2 ≤ a.2.2)) :
    (insertDesc y l).Pairwise (fun a b => b.2.2 ≤ a.2.2) := by
  induction l with
  | nil => simp [insertDesc]
  | cons z zs ih =>
    rcases List.pairwise_cons.mp h with ⟨hz, hzs⟩
    by_cases hlt : z.2.2 < y.2.2
    · rw [insertDesc, if_pos hlt]
      refine List.pairwise_cons.mpr ⟨?_, h⟩
      intro a ha
      rcases List.mem_cons.mp ha with rfl | ha
      · exact le_of_lt hlt
      · exact le_trans (hz a ha) (le_of_lt hlt)
    · rw [insertDesc, if_neg hlt]
      refine List.pairwise_cons.mpr ⟨?_, ih hzs⟩
      intro a ha
      rcases mem_insertDesc.mp ha with rfl | ha
      · exact le_of_not_lt hlt
      · exact hz a ha

theorem sorted_sortDesc (l : List Triple) :
    (sortDesc l).Pairwise (fun a b => b.2.2 ≤ a.2.2) := by
  induction l with
  | nil => simp [sortDesc]
  | cons z zs ih => exact sorted_insertDesc ih

/-! ## Claim theorems -/

/-- C5: empty input is success, not an error: `XlmRobertaBackend._suggest` on an
empty text returns an empty Suggestion Set before ever invoking the pipeline, and
`BaseTransformerBackend._suggest_batch` on an empty text list returns an empty
Suggestion Batch before ever parsing parameters or invoking the pipeline; both
paths are total (nothing is raised). -/
theorem empty_input_yields_empty_success (rp1 : String → List Triple)
    (rp : List String → List (List Triple)) (byUri : String → Nat) :
    xlm_suggest rp1 byUri "" = [] ∧ suggest_batch rp byUri [] = [] :=
  ⟨rfl, rfl⟩

/-- C8: a line without a tab separator (blank lines included) is dropped by
`DocumentFile._parse_tsv_line` with a logged warning and yields no document,
while every other line of the file is still processed: the documents of a line
list containing such a line are exactly the documents of the surrounding lines.
Parsing is total, so no line aborts the batch. -/
theorem tsv_malformed_line_skipped (cleanupUri : String → String) (textLimit : Option Nat)
    (line : String) (pre post : List String) (h : line.toList.contains '\t' = false) :
    parse_tsv_line cleanupUri textLimit line = (none, true)
    ∧ documentFileDocuments cleanupUri textLimit (pre ++ line :: post)
      = documentFileDocuments cleanupUri textLimit pre
        ++ documentFileDocuments cleanupUri textLimit post := by
  have h' : ¬ ('\t' ∈ line.data) := by simpa using h
  have hp : parse_tsv_line cleanupUri textLimit line = (none, true) := by
    simp [parse_tsv_line, h']
  refine ⟨hp, ?_⟩
  simp [documentFileDocuments, hp]

/-- C8 witness: the blank line `""` (no tab) is skipped with a warning between two
well-formed lines, whose two documents are still produced. -/
theorem tsv_malformed_line_skipped_witness :
    ("".toList.contains '\t' = false)
    ∧ parse_tsv_line id none "" = (none, true)
    ∧ documentFileDocuments id none (["a\tu\n"] ++ "" :: ["c\tv w\n"])
      = documentFileDocuments id none ["a\tu\n"] ++ documentFileDocuments id none ["c\tv w\n"] :=
  ⟨by decide, (tsv_malformed_line_skipped id none "" ["a\tu\n"] ["c\tv w\n"] (by decide)).1,
    (tsv_malformed_line_skipped id none "" ["a\tu\n"] ["c\tv w\n"] (by decide)).2⟩

/-- C10: in `EnsembleBackend._analyze_with_sources`, every hit with a score that
is not strictly positive is discarded before the weight is attached and before the
merge step downstream: every hit in the output has score strictly above 0, and each
output entry consists of exactly the positively-scored hits of one source together
with the weight of that source. -/
theorem ensemble_drops_nonpositive_before_merge (analyze : String → List SubjectSuggestion)
    (sources : List (String × ℚ)) (wh : WeightedHits)
    (hwh : wh ∈ analyze_with_sources analyze sources) :
    (∀ h ∈ wh.hits, 0 < h.score)
    ∧ ∃ s ∈ sources, wh.weight = s.2
        ∧ ∀ h : SubjectSuggestion, h ∈ wh.hits ↔ h ∈ analyze s.1 ∧ 0 < h.score := by
  rcases List.mem_map.mp hwh with ⟨s, hs, rfl⟩
  refine ⟨?_, s, hs, rfl, ?_⟩
  · intro h hh
    simpa using (List.mem_filter.mp hh).2
  · intro h
    simp [List.mem_filter]

/-- C10 witness: a source producing hits with scores 3, 0 and -1 contributes only
the 3-scored hit, at its configured weight. -/
theorem ensemble_drops_nonpositive_before_merge_witness :
    (⟨[⟨1, 3⟩], 2⟩ : WeightedHits) ∈ analyze_with_sources
        (fun _ => [⟨1, 3⟩, ⟨2, 0⟩, ⟨3, -1⟩]) [("src", 2)]
    ∧ ∀ h ∈ (⟨[⟨1, 3⟩], 2⟩ : WeightedHits).hits, 0 < h.score :=
  ⟨by decide,
    (ensemble_drops_nonpositive_before_merge (fun _ => [⟨1, 3⟩, ⟨2, 0⟩, ⟨3, -1⟩])
      [("src", 2)] _ (by decide)).1⟩

/-- On a list sorted by non-increasing score, taking the first `n` candidates and
then keeping those strictly above a threshold produces an initial segment of the
list: the two parameters act as prefix takes. -/
theorem take_filter_sorted (t : ℚ) (l : List (String × ℚ))
    (h : l.Pairwise (fun a b => b.2 ≤ a.2)) :
    ∀ n : Nat, ∃ k, (l.take n).filter (fun p => t < p.2) = l.take k := by
  induction l with
  | nil => intro n; exact ⟨0, by simp⟩
  | cons x xs ih =>
    intro n
    rcases List.pairwise_cons.mp h with ⟨hx, hxs⟩
    cases n with
    | zero => exact ⟨0, by simp⟩
    | succ n =>
      by_cases hxt : t < x.2
      · rcases ih hxs n with ⟨k, hk⟩
        exact ⟨k + 1, by simp [List.filter_cons, hxt, hk]⟩
      · refine ⟨0, ?_⟩
        rw [List.take_zero]
        refine List.filter_eq_nil_iff.mpr ?_
        intro p hp
        rcases List.mem_cons.mp (List.mem_of_mem_take hp) with rfl | hpmem
        · simpa using hxt
        · simp only [decide_eq_true_eq]
          exact fun hlt => hxt (lt_of_lt_of_le hlt (hx p hpmem))

/-- C2 counterexample: the claim fails on the EhriBert path. With a single
probability exactly equal to the threshold (both 1), `EhriBertBackend.run_pipeline`
keeps the suggestion (`np.where(probs >= threshold)` is non-strict), so the result
contains an entry whose score is NOT strictly above the threshold, refuting
"drops every Suggestion with score ≤ threshold ... on every threshold-applying
suggestion path". -/
theorem ehribert_keeps_score_equal_to_threshold :
    ehribertPredictOne (fun _ => "L") id id [1] 1 10 = [("L", "L", 1)]
    ∧ ¬ (∀ t ∈ ehribertPredictOne (fun _ => "L") id id [1] 1 10, (1 : ℚ) < t.2.2) := by
  constructor
  · decide
  · intro hall
    exact absurd (hall ("L", "L", 1) (by decide)) (by decide)

/-- C2 amended: the threshold comparison is strict on the base transformer path —
every suggestion produced by `BaseTransformerBackend.run_pipeline` has score
strictly above the threshold — while the overriding EhriBert path keeps scores
that are merely greater than or equal to the threshold (an exactly-equal score
is kept there, not dropped). -/
theorem threshold_filter_semantics (termsRev : String → String) (cand : List (String × ℚ))
    (num : Nat) (threshold : ℚ) (id2label : Nat → String) (labelTexts labelToUri : String → String)
    (probs : List ℚ) :
    (∀ t ∈ transformerSuggestions termsRev cand num threshold, threshold < t.2.2)
    ∧ (∀ t ∈ ehribertPredictOne id2label labelTexts labelToUri probs threshold num,
        threshold ≤ t.2.2) := by
  constructor
  · intro t ht
    rcases List.mem_map.mp ht with ⟨p, hp, rfl⟩
    simpa using of_decide_eq_true (List.mem_filter.mp hp).2
  · intro t ht
    have ht' : t ∈ sortDesc ((probs.enum.filter (fun p => decide (threshold ≤ p.2))).map
        (fun p => (labelToUri (id2label p.1), labelTexts (id2label p.1), p.2))) := by
      simpa [ehribertPredictOne] using List.mem_of_mem_take ht
    rcases List.mem_map.mp (mem_sortDesc.mp ht') with ⟨p, hp, rfl⟩
    simpa using of_decide_eq_true (List.mem_filter.mp hp).2

/-- C2 witness: a transformer candidate with score 2 above threshold 1 survives and
indeed has score strictly above the threshold. -/
theorem threshold_filter_semantics_witness :
    ("a", "a", (2 : ℚ)) ∈ transformerSuggestions id [("a", 2), ("b", 1)] 10 1
    ∧ (1 : ℚ) < 2 :=
  ⟨by decide,
    (threshold_filter_semantics id [("a", 2), ("b", 1)] 10 1 (fun _ => "L") id id []).1
      ("a", "a", 2) (by decide)⟩

/-- C7: on a suggestion list already sorted by descending score, the limit keeps at
most `num` entries taking the highest-scored first — the result is a prefix of the
(translated) sorted candidate list — and when every candidate is strictly above the
threshold the result is exactly the top `num` candidates. On the EhriBert path the
result likewise has at most `num` entries and is sorted by non-increasing score
(its own sort followed by a prefix take). -/
theorem filter_limit_prefix_take (termsRev : String → String) (cand : List (String × ℚ))
    (num : Nat) (threshold : ℚ) (id2label : Nat → String)
    (labelTexts labelToUri : String → String) (probs : List ℚ)
    (h : cand.Pairwise (fun a b => b.2 ≤ a.2)) :
    (transformerSuggestions termsRev cand num threshold).length ≤ num
    ∧ (∃ k, transformerSuggestions termsRev cand num threshold
        = (cand.map (fun p => (termsRev p.1, p.1, p.2))).take k)
    ∧ ((∀ p ∈ cand, threshold < p.2) → transformerSuggestions termsRev cand num threshold
        = (cand.take num).map (fun p => (termsRev p.1, p.1, p.2)))
    ∧ (ehribertPredictOne id2label labelTexts labelToUri probs threshold num).length ≤ num
    ∧ (ehribertPredictOne id2label labelTexts labelToUri probs threshold num).Pairwise
        (fun a b => b.2.2 ≤ a.2.2) := by
  refine ⟨?_, ?_, ?_, ?_, ?_⟩
  · calc (transformerSuggestions termsRev cand num threshold).length
        = (((cand.take num).filter (fun p => threshold < p.2))).length := by
          simp [transformerSuggestions]
      _ ≤ (cand.take num).length := List.length_filter_le _ _
      _ ≤ num := cand.length_take_le num
  · rcases take_filter_sorted threshold cand h num with ⟨k, hk⟩
    exact ⟨k, by simp [transformerSuggestions, hk, List.map_take]⟩
  · intro hall
    have : (cand.take num).filter (fun p => threshold < p.2) = cand.take num :=
      List.filter_eq_self.mpr (fun p hp => by
        simpa using hall p (List.mem_of_mem_take hp))
    simp [transformerSuggestions, this]
  · exact List.length_take_le _ _
  · exact (sorted_sortDesc _).sublist (List.take_sublist _ _)

/-- C7 witness: a 20-candidate list with descending integer scores 20..1, limit 5
and threshold 0: the hypotheses hold and the filter returns exactly the top 5. -/
theorem filter_limit_prefix_take_witness :
    ([("s01", 20), ("s02", 19), ("s03", 18), ("s04", 17), ("s05", 16), ("s06", 15),
      ("s07", 14), ("s08", 13), ("s09", 12), ("s10", 11), ("s11", 10), ("s12", 9),
      ("s13", 8), ("s14", 7), ("s15", 6), ("s16", 5), ("s17", 4), ("s18", 3),
      ("s19", 2), ("s20", 1)] : List (String × ℚ)).Pairwise (fun a b => b.2 ≤ a.2)
    ∧ (∀ p ∈ ([("s01", 20), ("s02", 19), ("s03", 18), ("s04", 17), ("s05", 16), ("s06", 15),
      ("s07", 14), ("s08", 13), ("s09", 12), ("s10", 11), ("s11", 10), ("s12", 9),
      ("s13", 8), ("s14", 7), ("s15", 6), ("s16", 5), ("s17", 4), ("s18", 3),
      ("s19", 2), ("s20", 1)] : List (String × ℚ)), (0 : ℚ) < p.2)
    ∧ transformerSuggestions id ([("s01", 20), ("s02", 19), ("s03", 18), ("s04", 17),
      ("s05", 16), ("s06", 15), ("s07", 14), ("s08", 13), ("s09", 12), ("s10", 11),
      ("s11", 10), ("s12", 9), ("s13", 8), ("s14", 7), ("s15", 6), ("s16", 5),
      ("s17", 4), ("s18", 3), ("s19", 2), ("s20", 1)] : List (String × ℚ)) 5 0
      = (([("s01", 20), ("s02", 19), ("s03", 18), ("s04", 17), ("s05", 16), ("s06", 15),
      ("s07", 14), ("s08", 13), ("s09", 12), ("s10", 11), ("s11", 10), ("s12", 9),
      ("s13", 8), ("s14", 7), ("s15", 6), ("s16", 5), ("s17", 4), ("s18", 3),
      ("s19", 2), ("s20", 1)] : List (String × ℚ)).take 5).map
        (fun p => (id p.1, p.1, p.2)) :=
  ⟨by decide, by decide,
    (filter_limit_prefix_take id _ 5 0 (fun _ => "L") id id [] (by decide)).2.2.1 (by decide)⟩

/-- Correctness of the reinsertion loop of `_suggest_batch`: starting from the
pipeline outputs of the non-blank texts (in order), inserting an empty set at each
blank position rebuilds one entry per original text, in order. -/
theorem insertEmpty_spec (texts : List String) (g : String → List SubjectSuggestion) :
    insertEmpty texts ((texts.filter (fun t => ¬ isBlank t)).map g)
      = texts.map (fun t => if isBlank t then [] else g t) := by
  have main : ∀ k, k ≤ texts.length →
      (List.range k).foldl
          (fun b i => if isBlank (texts.getD i "") then pyInsert b i [] else b)
          ((texts.filter (fun t => ¬ isBlank t)).map g)
        = (texts.map (fun t => if isBlank t then [] else g t)).take k
          ++ ((texts.drop k).filter (fun t => ¬ isBlank t)).map g := by
    intro k
    induction k with
    | zero => simp
    | succ k ih =>
      intro hk
      have hklt : k < texts.length := hk
      have hk' : k ≤ texts.length := Nat.le_of_succ_le hk
      have hPlen : ((texts.map (fun t => if isBlank t then [] else g t)).take k).length = k := by
        simp [Nat.min_eq_left hk']
      have hdrop : texts.drop k = texts[k] :: texts.drop (k + 1) :=
        List.drop_eq_getElem_cons hklt
      have htake : (texts.map (fun t => if isBlank t then [] else g t)).take (k + 1)
          = (texts.map (fun t => if isBlank t then [] else g t)).take k
            ++ [if isBlank texts[k] then [] else g texts[k]] := by
        rw [List.take_succ, List.getElem?_map, texts.getElem?_eq_getElem hklt]
        rfl
      have hgetD : texts.getD k "" = texts[k] := List.getD_eq_getElem texts "" hklt
      rw [List.range_succ, List.foldl_append, ih hk']
      simp only [List.foldl_cons, List.foldl_nil, hgetD]
      by_cases hb : isBlank texts[k]
      · rw [if_pos hb, pyInsert, List.take_left' hPlen, List.drop_left' hPlen, htake, hdrop,
          if_pos hb]
        have hfq : (texts[k] :: texts.drop (k + 1)).filter (fun t => ¬ isBlank t)
            = (texts.drop (k + 1)).filter (fun t => ¬ isBlank t) :=
          List.filter_cons_of_neg (by simp [hb])
        rw [hfq]
        simp
      · rw [if_neg hb, htake, hdrop, if_neg hb]
        have hfq : (texts[k] :: texts.drop (k + 1)).filter (fun t => ¬ isBlank t)
            = texts[k] :: (texts.drop (k + 1)).filter (fun t => ¬ isBlank t) :=
          List.filter_cons_of_pos (by simp [hb])
        rw [hfq]
        simp
  have hfin := main texts.length le_rfl
  rw [List.drop_length] at hfin
  have htakeAll : (texts.map (fun t => if isBlank t then [] else g t)).take texts.length
      = texts.map (fun t => if isBlank t then [] else g t) := by
    simp
  rw [htakeAll] at hfin
  simpa [insertEmpty] using hfin

/-- C4: `_suggest_batch` returns exactly one Suggestion Set per input text, in
order: under the pipeline contract that `run_pipeline` returns one suggestion list
per input text (`rp ts = ts.map rpOne`), the batch has the same length as the text
list and its `i`-th entry is the converted pipeline output of the `i`-th text — an
empty Suggestion Set when that text is blank (empty or whitespace-only), never a
shorter batch. -/
theorem suggest_batch_one_set_per_text (rpOne : String → List Triple)
    (rp : List String → List (List Triple)) (byUri : String → Nat) (texts : List String)
    (hrp : ∀ ts, rp ts = ts.map rpOne) :
    (suggest_batch rp byUri texts).length = texts.length
    ∧ suggest_batch rp byUri texts
        = texts.map (fun t => if isBlank t then [] else makeSuggestions byUri (rpOne t)) := by
  have hmain : suggest_batch rp byUri texts
      = texts.map (fun t => if isBlank t then [] else makeSuggestions byUri (rpOne t)) := by
    cases texts with
    | nil => rfl
    | cons t ts =>
      have hlen : ((t :: ts : List String).length = 0) = False := by simp
      rw [suggest_batch]
      simp only [hlen, if_false, fromSequence, hrp, List.map_map]
      exact insertEmpty_spec (t :: ts) (fun s => makeSuggestions byUri (rpOne s))
  exact ⟨by rw [hmain]; simp, hmain⟩

/-- C4 witness: four texts, of which the second is empty and the fourth is
whitespace-only, produce a batch of four Suggestion Sets with empty sets at
positions 2 and 4. -/
theorem suggest_batch_one_set_per_text_witness :
    (∀ ts, (fun l : List String => l.map (fun t => [(t, t, (1 : ℚ))])) ts
        = ts.map (fun t => [(t, t, (1 : ℚ))]))
    ∧ (suggest_batch (fun l : List String => l.map (fun t => [(t, t, (1 : ℚ))]))
        (fun _ => 7) ["x", "", "y", " "]).length = (["x", "", "y", " "] : List String).length :=
  ⟨fun _ => rfl,
    (suggest_batch_one_set_per_text (fun t => [(t, t, (1 : ℚ))])
      (fun l => l.map (fun t => [(t, t, (1 : ℚ))])) (fun _ => 7) ["x", "", "y", " "]
      (fun _ => rfl)).1⟩

/-- C6 counterexample: a response whose BODY cannot be parsed as JSON makes
`MistralBackend._suggest` raise (`out = response.json()` sits outside the
`try`/`except` block), refuting "never raises to the caller" for that failure
mode. -/
theorem mistral_nonjson_body_raises :
    mistral_suggest (fun _ => none) (fun _ => 0) (fun _ => none) (.response none)
      = .error "requests.exceptions.JSONDecodeError" := rfl

/-- C6 amended: an HTTP request error, a response with no choices, and a first
choice whose message content cannot be parsed as JSON each yield an empty
suggestion list without raising (and the request is issued exactly once — the
embedding consumes a single HTTP outcome and has no retry path); however a
response body that is not valid JSON raises to the caller. -/
theorem mistral_failure_handling (termsRev : String → Option String) (byUri : String → Nat)
    (parse : String → Option (List String)) (out : MistralOut)
    (hchoices : out.choices = []) (out2 : MistralOut)
    (hparse : parse (out2.choices.headD "") = none) :
    mistral_suggest termsRev byUri parse .requestError = .ok []
    ∧ mistral_suggest termsRev byUri parse (.response (some out)) = .ok []
    ∧ mistral_suggest termsRev byUri parse (.response (some out2)) = .ok []
    ∧ mistral_suggest termsRev byUri parse (.response none)
        = .error "requests.exceptions.JSONDecodeError" := by
  refine ⟨rfl, ?_, ?_, rfl⟩
  · simp [mistral_suggest, hchoices]
  · rcases hc : out2.choices with _ | ⟨c, cs⟩
    · simp [mistral_suggest, hc]
    · rw [hc] at hparse
      simp only [List.headD_cons] at hparse
      simp [mistral_suggest, hc, hparse]

/-- C6 witness: with a choice-less response and a response whose first choice
content does not parse, `_suggest` returns an empty suggestion list. -/
theorem mistral_failure_handling_witness :
    (MistralOut.mk []).choices = []
    ∧ (fun _ : String => (none : Option (List String))) ((MistralOut.mk ["bad"]).choices.headD "")
        = none
    ∧ mistral_suggest (fun _ => none) (fun _ => 0) (fun _ => none) .requestError = .ok []
    ∧ mistral_suggest (fun _ => none) (fun _ => 0) (fun _ => none)
        (.response (some (MistralOut.mk []))) = .ok []
    ∧ mistral_suggest (fun _ => none) (fun _ => 0) (fun _ => none)
        (.response (some (MistralOut.mk ["bad"]))) = .ok [] :=
  ⟨rfl, rfl,
    (mistral_failure_handling (fun _ => none) (fun _ => 0) (fun _ => none)
      (MistralOut.mk []) rfl (MistralOut.mk ["bad"]) rfl).1,
    (mistral_failure_handling (fun _ => none) (fun _ => 0) (fun _ => none)
      (MistralOut.mk []) rfl (MistralOut.mk ["bad"]) rfl).2.1,
    (mistral_failure_handling (fun _ => none) (fun _ => 0) (fun _ => none)
      (MistralOut.mk []) rfl (MistralOut.mk ["bad"]) rfl).2.2.1⟩

/-! ## Helper lemmas for the `run_optimize` selection loop -/

theorem find?_setKey_ne {α : Type} (l : List (String × α)) (k m : String) (v : α) (h : k ≠ m) :
    (setKey l k v).find? (fun p => p.1 = m) = l.find? (fun p => p.1 = m) := by
  unfold setKey
  by_cases hs : (l.find? (fun p => p.1 = k)).isSome
  · rw [if_pos hs]
    induction l with
    | nil => rfl
    | cons p l ih =>
      by_cases hpk : p.1 = k
      · have hpm : ¬ (p.1 = m) := by rw [hpk]; exact h
        simp only [List.map_cons, if_pos hpk]
        rw [List.find?_cons_of_neg _ (by simpa using h),
          List.find?_cons_of_neg _ (by simpa using hpm)]
        by_cases hs' : (l.find? (fun p => p.1 = k)).isSome
        · exact ih hs'
        · have hmap : l.map (fun q => if q.1 = k then (k, v) else q) = l := by
            have hcong : ∀ q ∈ l, (if q.1 = k then (k, v) else q) = id q := by
              intro q hq
              have := List.find?_eq_none.mp (Option.not_isSome_iff_eq_none.mp hs') q hq
              simp only [id]
              exact if_neg (by simpa using this)
            rw [List.map_congr_left hcong, List.map_id]
          rw [hmap]
      · simp only [List.map_cons, if_neg hpk]
        by_cases hpm : p.1 = m
        · rw [List.find?_cons_of_pos _ (by simpa using hpm),
            List.find?_cons_of_pos _ (by simpa using hpm)]
        · rw [List.find?_cons_of_neg _ (by simpa using hpm),
            List.find?_cons_of_neg _ (by simpa using hpm)]
          have hs'' : (l.find? (fun p => p.1 = k)).isSome := by
            have := hs
            rw [List.find?_cons_of_neg _ (by simpa using hpk)] at this
            exact this
          exact ih hs''
  · rw [if_neg hs, List.find?_append]
    have : ([(k, v)].find? (fun p => p.1 = m)) = none := by
      simp [List.find?_cons, h]
    rw [this]
    cases l.find? (fun p => p.1 = m) <;> rfl

theorem find?_setKey_self {α : Type} (l : List (String × α)) (k : String) (v : α) :
    (setKey l k v).find? (fun p => p.1 = k) = some (k, v) := by
  unfold setKey
  by_cases hs : (l.find? (fun p => p.1 = k)).isSome
  · rw [if_pos hs]
    induction l with
    | nil => simp at hs
    | cons p l ih =>
      by_cases hpk : p.1 = k
      · simp only [List.map_cons, if_pos hpk]
        rw [List.find?_cons_of_pos _ (by simp)]
      · simp only [List.map_cons, if_neg hpk]
        rw [List.find?_cons_of_neg _ (by simpa using hpk)]
        have hs'' : (l.find? (fun p => p.1 = k)).isSome := by
          have := hs
          rw [List.find?_cons_of_neg _ (by simpa using hpk)] at this
          exact this
        exact ih hs''
  · rw [if_neg hs, List.find?_append, Option.not_isSome_iff_eq_none.mp hs]
    simp [List.find?_cons]



theorem projM_optimizeStep (params : Nat × ℚ) (st : OptState) (ms : String × ℚ) (m : String) :
    projM (optimizeStep params st ms) m
      = if ms.1 = m then stepMax (projM st m) (params, ms.2) else projM st m := by
  by_cases hm : ms.1 = m
  · rw [if_pos hm]
    subst hm
    by_cases hlt : lookupScore st.1 ms.1 < ms.2
    · rw [optimizeStep, if_pos hlt, stepMax,
        if_pos (show (projM st ms.1).1 < (params, ms.2).2 from hlt)]
      unfold projM lookupScore lookupParams
      rw [find?_setKey_self, find?_setKey_self]
      rfl
    · rw [optimizeStep, if_neg hlt, stepMax,
        if_neg (show ¬ (projM st ms.1).1 < (params, ms.2).2 from hlt)]
  · rw [if_neg hm]
    by_cases hlt : lookupScore st.1 ms.1 < ms.2
    · rw [optimizeStep, if_pos hlt]
      unfold projM lookupScore lookupParams
      rw [find?_setKey_ne _ _ _ _ hm, find?_setKey_ne _ _ _ _ hm]
    · rw [optimizeStep, if_neg hlt]

theorem innerFold_projM_nil (params : Nat × ℚ) (m : String) (l : List (String × ℚ))
    (h : l.filter (fun e => e.1 = m) = []) (st : OptState) :
    projM (l.foldl (optimizeStep params) st) m = projM st m := by
  induction l generalizing st with
  | nil => rfl
  | cons e l ih =>
    by_cases hem : e.1 = m
    · rw [List.filter_cons_of_pos (by simpa using hem)] at h
      exact absurd h (List.cons_ne_nil _ _)
    · rw [List.filter_cons_of_neg (by simpa using hem)] at h
      rw [List.foldl_cons, ih h, projM_optimizeStep, if_neg hem]

theorem innerFold_projM_single (params : Nat × ℚ) (m : String) (sc : ℚ)
    (l : List (String × ℚ)) (h : l.filter (fun e => e.1 = m) = [(m, sc)]) (st : OptState) :
    projM (l.foldl (optimizeStep params) st) m = stepMax (projM st m) (params, sc) := by
  induction l generalizing st with
  | nil => exact absurd h (by simp)
  | cons e l ih =>
    by_cases hem : e.1 = m
    · rw [List.filter_cons_of_pos (by simpa using hem), List.cons_eq_cons] at h
      rcases h with ⟨rfl, hrest⟩
      rw [List.foldl_cons, innerFold_projM_nil params m l hrest,
        projM_optimizeStep, if_pos hem]
    · rw [List.filter_cons_of_neg (by simpa using hem)] at h
      rw [List.foldl_cons, ih h, projM_optimizeStep, if_neg hem]

theorem optimizeFold_projM (res : Nat × ℚ → List (String × ℚ)) (m : String)
    (score : Nat × ℚ → ℚ)
    (hres : ∀ p ∈ gridParams, (res p).filter (fun e => e.1 = m) = [(m, score p)]) :
    projM (optimizeFold res) m
      = (gridParams.map (fun p => (p, score p))).foldl stepMax (0, none) := by
  have main : ∀ (l : List (Nat × ℚ)), (∀ p ∈ l, (res p).filter (fun e => e.1 = m)
        = [(m, score p)]) → ∀ st : OptState,
      projM (l.foldl (fun st p => (res p).foldl (optimizeStep p) st) st) m
        = (l.map (fun p => (p, score p))).foldl stepMax (projM st m) := by
    intro l
    induction l with
    | nil => intro _ st; rfl
    | cons p l ih =>
      intro hl st
      rw [List.foldl_cons, List.map_cons, List.foldl_cons,
        ih (fun q hq => hl q (List.mem_cons_of_mem _ hq)),
        innerFold_projM_single p m (score p) (res p) (hl p (List.mem_cons_self _ _)) st]
  exact main gridParams hres ([], [])


theorem bestVal_cons (a : ℚ) (x : (Nat × ℚ) × ℚ) (l : List ((Nat × ℚ) × ℚ)) :
    bestVal a (x :: l) = bestVal (max a x.2) l := rfl

theorem le_bestVal (l : List ((Nat × ℚ) × ℚ)) : ∀ a : ℚ, a ≤ bestVal a l := by
  induction l with
  | nil => intro a; exact le_rfl
  | cons x l ih =>
    intro a
    rw [bestVal_cons]
    exact le_trans (le_max_left _ _) (ih _)

theorem mem_le_bestVal (l : List ((Nat × ℚ) × ℚ)) :
    ∀ a : ℚ, ∀ x ∈ l, x.2 ≤ bestVal a l := by
  induction l with
  | nil => intro a x hx; cases hx
  | cons y l ih =>
    intro a x hx
    rw [bestVal_cons]
    rcases List.mem_cons.mp hx with rfl | hx
    · exact le_trans (le_max_right _ _) (le_bestVal l _)
    · exact ih _ x hx

theorem bestVal_attained (l : List ((Nat × ℚ) × ℚ)) :
    ∀ a : ℚ, bestVal a l = a ∨ ∃ x ∈ l, x.2 = bestVal a l := by
  induction l with
  | nil => intro a; exact Or.inl rfl
  | cons x l ih =>
    intro a
    rw [bestVal_cons]
    rcases ih (max a x.2) with h | ⟨y, hy, hyv⟩
    · rcases max_choice a x.2 with hm | hm
      · exact Or.inl (by rw [h, hm])
      · exact Or.inr ⟨x, List.mem_cons_self _ _, by rw [h, hm]⟩
    · exact Or.inr ⟨y, List.mem_cons_of_mem _ hy, hyv⟩

theorem fst_stepMax (a : ℚ × Option (Nat × ℚ)) (x : (Nat × ℚ) × ℚ) :
    (stepMax a x).1 = max a.1 x.2 := by
  unfold stepMax
  rcases le_or_lt x.2 a.1 with h | h
  · rw [if_neg (not_lt.mpr h), max_eq_left h]
  · rw [if_pos h, max_eq_right (le_of_lt h)]

theorem foldl_stepMax_no_update (l : List ((Nat × ℚ) × ℚ)) :
    ∀ a : ℚ × Option (Nat × ℚ), (∀ x ∈ l, x.2 ≤ a.1) → l.foldl stepMax a = a := by
  induction l with
  | nil => intro a _; rfl
  | cons x l ih =>
    intro a h
    rw [List.foldl_cons, stepMax, if_neg (not_lt.mpr (h x (List.mem_cons_self _ _)))]
    exact ih a (fun y hy => h y (List.mem_cons_of_mem _ hy))

theorem foldl_stepMax_first_argmax (l : List ((Nat × ℚ) × ℚ)) :
    ∀ a : ℚ × Option (Nat × ℚ), a.1 < bestVal a.1 l →
      (l.foldl stepMax a).2
        = (l.find? (fun x => bestVal a.1 l ≤ x.2)).map (fun x => x.1) := by
  induction l with
  | nil => intro a h; exact absurd h (lt_irrefl _)
  | cons x l ih =>
    intro a ha
    rw [bestVal_cons] at ha ⊢
    by_cases hx : bestVal (max a.1 x.2) l ≤ x.2
    · have hxB : x.2 = bestVal (max a.1 x.2) l := by
        refine le_antisymm ?_ hx
        exact le_trans (le_max_right _ _) (le_bestVal l _)
      rw [List.find?_cons_of_pos _ (by simpa using hx)]
      have hstep : stepMax a x = (x.2, some x.1) := by
        rw [stepMax, if_pos (lt_of_lt_of_le ha hx)]
      rw [List.foldl_cons, hstep,
        foldl_stepMax_no_update l (x.2, some x.1)
          (fun y hy => by
            have := mem_le_bestVal l (max a.1 x.2) y hy
            rw [← hxB] at this
            exact this)]
      rfl
    · have hxlt : x.2 < bestVal (max a.1 x.2) l := not_le.mp hx
      have hfst : (stepMax a x).1 = max a.1 x.2 := fst_stepMax a x
      have hmaxlt : (stepMax a x).1 < bestVal (stepMax a x).1 l := by
        rw [hfst]
        exact max_lt ha hxlt
      rw [List.find?_cons_of_neg _ (by simpa using hx), List.foldl_cons]
      have := ih (stepMax a x) hmaxlt
      rw [hfst] at this
      exact this

theorem find?_eq_some_split {α : Type} (p : α → Bool) (l : List α) (x : α)
    (h : l.find? p = some x) :
    ∃ l₁ l₂, l = l₁ ++ x :: l₂ ∧ (∀ y ∈ l₁, ¬ p y) ∧ p x := by
  induction l with
  | nil => simp at h
  | cons a l ih =>
    by_cases hp : p a
    · rw [List.find?_cons_of_pos _ hp, Option.some.injEq] at h
      subst h
      exact ⟨[], l, rfl, by simp, hp⟩
    · rw [List.find?_cons_of_neg _ hp] at h
      rcases ih h with ⟨l₁, l₂, rfl, hl₁, hx⟩
      exact ⟨a :: l₁, l₂, rfl, by
        intro y hy
        rcases List.mem_cons.mp hy with rfl | hy
        · exact hp
        · exact hl₁ y hy, hx⟩

/-! ## Structure of the parameter grid -/

theorem gridParams_eq : gridParams
    = (List.range' 1 15).flatMap (fun limit =>
        (List.range 20).map (fun i : Nat => (limit, (i : ℚ) * (5/100)))) := by
  rw [gridParams, generate_filter_batches, List.map_flatMap]
  simp only [List.map_map]
  rfl

theorem mem_gridParams (L : Nat) (t : ℚ) :
    (L, t) ∈ gridParams ↔ 1 ≤ L ∧ L ≤ 15 ∧ ∃ i : Nat, i < 20 ∧ t = (i : ℚ) * (5/100) := by
  rw [gridParams_eq, List.mem_flatMap]
  constructor
  · rintro ⟨limit, hlim, hmem⟩
    rcases List.mem_map.mp hmem with ⟨i, hi, heq⟩
    have h1 : limit = L := congrArg Prod.fst heq
    have h2 : (i : ℚ) * (5/100) = t := congrArg Prod.snd heq
    rcases List.mem_range'_1.mp hlim with ⟨hlo, hhi⟩
    subst h1
    exact ⟨hlo, by omega, i, List.mem_range.mp hi, h2.symm⟩
  · rintro ⟨h1, h2, i, hi, rfl⟩
    exact ⟨L, List.mem_range'_1.mpr ⟨h1, by omega⟩,
      List.mem_map.mpr ⟨i, List.mem_range.mpr hi, rfl⟩⟩

theorem gridParams_pairwise_lex :
    gridParams.Pairwise (fun a b => a.1 < b.1 ∨ (a.1 = b.1 ∧ a.2 < b.2)) := by
  rw [gridParams_eq]
  rw [List.pairwise_flatMap]
  constructor
  · intro limit _
    refine (List.pairwise_lt_range 20).map _ ?_
    intro i j hij
    refine Or.inr ⟨rfl, ?_⟩
    have hcast : (i : ℚ) < (j : ℚ) := by exact_mod_cast hij
    have hpos : (0 : ℚ) < 5/100 := by norm_num
    exact mul_lt_mul_of_pos_right hcast hpos
  · refine (List.pairwise_lt_range' 1 15).imp ?_
    intro a b hab
    intro x hx y hy
    rcases List.mem_map.mp hx with ⟨i, _, rfl⟩
    rcases List.mem_map.mp hy with ⟨j, _, rfl⟩
    exact Or.inl hab

theorem gridParams_nodup : gridParams.Nodup := by
  refine gridParams_pairwise_lex.imp ?_
  intro a b hab
  rintro rfl
  rcases hab with h | ⟨-, h⟩
  · exact lt_irrefl _ h
  · exact lt_irrefl _ h

/-- C3 counterexample: the threshold grid of `generate_filter_batches` never
reaches 1: the pair (limit 1, threshold 1) required by the claim is absent from
the sweep (the thresholds are `i * 0.05` for `i ∈ range(20)`, topping out at
0.95). -/
theorem grid_has_no_threshold_one : ¬ ((1, (1 : ℚ)) ∈ gridParams) := by
  rw [mem_gridParams]
  rintro ⟨-, -, i, hi, hit⟩
  have hle : (i : ℚ) ≤ 19 := by exact_mod_cast Nat.lt_succ_iff.mp hi
  have : (i : ℚ) * (5/100) ≤ 19 * (5/100) := by
    have hpos : (0 : ℚ) < 5/100 := by norm_num
    exact mul_le_mul_of_nonneg_right hle (le_of_lt hpos)
  rw [← hit] at this
  norm_num at this

/-- C3 amended: the sweep covers the cross product of limits 1..15 with the 20
thresholds `{0, 0.05, ..., 0.95}` — the even 0.05-grid stops BELOW 1, which is not
included — with exactly one fresh `HitFilter`/`EvaluationBatch` pair per
(limit, threshold) pair and no duplicate pairs. -/
theorem grid_cross_product_structure :
    (∀ L : Nat, ∀ t : ℚ, ((L, t) ∈ gridParams
        ↔ 1 ≤ L ∧ L ≤ 15 ∧ ∃ i : Nat, i < 20 ∧ t = (i : ℚ) * (5/100)))
    ∧ gridParams.Nodup
    ∧ generate_filter_batches
        = gridParams.map (fun p => (p, (⟨p.1, p.2⟩, ⟨[]⟩))) := by
  refine ⟨mem_gridParams, gridParams_nodup, ?_⟩
  rw [gridParams_eq, generate_filter_batches, List.map_flatMap]
  simp only [List.map_map]
  rfl

/-- C3 witness: the pair (limit 1, threshold 0) of the cross product is in the
grid. -/
theorem grid_cross_product_structure_witness :
    (1 ≤ 1 ∧ 1 ≤ 15 ∧ ∃ i : Nat, i < 20 ∧ (0 : ℚ) * (5/100) = ((i : Nat) : ℚ) * (5/100))
    ∧ (1, (0 : ℚ) * (5/100)) ∈ gridParams :=
  ⟨⟨le_rfl, by decide, 0, by decide, rfl⟩,
    (grid_cross_product_structure.1 1 ((0 : ℚ) * (5/100))).mpr
      ⟨le_rfl, by decide, 0, by decide, rfl⟩⟩

theorem find?_map_fst (score : Nat × ℚ → ℚ) (B : ℚ) (l : List (Nat × ℚ)) :
    ((l.map (fun p => (p, score p))).find? (fun x => B ≤ x.2)).map (fun x => x.1)
      = l.find? (fun q => B ≤ score q) := by
  induction l with
  | nil => rfl
  | cons q l ih =>
    by_cases h : B ≤ score q
    · rw [List.map_cons, List.find?_cons_of_pos _ (by simpa using h),
        List.find?_cons_of_pos _ (by simpa using h)]
      rfl
    · rw [List.map_cons, List.find?_cons_of_neg _ (by simpa using h),
        List.find?_cons_of_neg _ (by simpa using h), ih]

/-- The zero-invariant of the selection loop: when every reported score for a
metric is non-positive, the strict comparison against the `defaultdict` value 0.0
never fires, so neither `best_scores` nor `best_params` ever records that metric. -/
theorem optimizeFold_projM_zero (res : Nat × ℚ → List (String × ℚ)) (m : String)
    (hres : ∀ p ∈ gridParams, ∀ e ∈ res p, e.1 = m → e.2 ≤ 0) :
    projM (optimizeFold res) m = (0, none) := by
  have hinner : ∀ (params : Nat × ℚ) (l : List (String × ℚ)),
      (∀ e ∈ l, e.1 = m → e.2 ≤ 0) → ∀ st : OptState, projM st m = (0, none) →
        projM (l.foldl (optimizeStep params) st) m = (0, none) := by
    intro params l
    induction l with
    | nil => intro _ st h; exact h
    | cons e l ih =>
      intro hl st hst
      rw [List.foldl_cons]
      refine ih (fun y hy => hl y (List.mem_cons_of_mem _ hy)) _ ?_
      rw [projM_optimizeStep]
      by_cases hem : e.1 = m
      · rw [if_pos hem, hst, stepMax,
          if_neg (show ¬ (((0 : ℚ), (none : Option (Nat × ℚ))).1 < (params, e.2).2) from
            not_lt.mpr (hl e (List.mem_cons_self _ _) hem))]
      · rw [if_neg hem, hst]
  have houter : ∀ (l : List (Nat × ℚ)), (∀ p ∈ l, ∀ e ∈ res p, e.1 = m → e.2 ≤ 0) →
      ∀ st : OptState, projM st m = (0, none) →
        projM (l.foldl (fun st p => (res p).foldl (optimizeStep p) st) st) m = (0, none) := by
    intro l
    induction l with
    | nil => intro _ st h; exact h
    | cons p l ih =>
      intro hl st hst
      rw [List.foldl_cons]
      exact ih (fun q hq => hl q (List.mem_cons_of_mem _ hq)) _
        (hinner p (res p) (hl p (List.mem_cons_self _ _)) st hst)
  exact houter gridParams hres ([], []) rfl

/-- C1 counterexample: when a tracked metric (here the per-document-average
precision, which every `results()` dict reports) scores 0 for every
(limit, threshold) pair, `run_optimize` selects NO pair for it — the strict `>`
against the 0.0 default of `best_scores` never fires — even though all pairs are
tied at the highest value and the claim requires the first pair in iteration
order to be selected. -/
theorem optimize_all_zero_selects_no_pair :
    lookupParams (optimizeFold
        (fun _ => [("Precision (per document average)", 0)])).2
      "Precision (per document average)" = none
    ∧ ∀ p ∈ gridParams,
        ("Precision (per document average)", (0 : ℚ))
          ∈ (fun _ : Nat × ℚ => [("Precision (per document average)", (0 : ℚ))]) p := by
  constructor
  · have hz := optimizeFold_projM_zero
      (fun _ : Nat × ℚ => [("Precision (per document average)", (0 : ℚ))])
      "Precision (per document average)"
      (by
        intro p _ e he _
        rw [List.mem_singleton.mp he])
    rw [projM, Prod.mk.injEq] at hz
    exact hz.2
  · intro p _
    exact List.mem_singleton.mpr rfl

/-- C1 amended: the `filter_batches` iteration order is lexicographic (lower limit
first, then lower threshold); PROVIDED some pair attains a strictly positive value
for a metric, the pair recorded in `best_params` for that metric is exactly the
first pair in iteration order attaining the strictly highest value (earlier pairs
are strictly below it, no pair is above it); and the sweep is deterministic — the
outcome is a pure function of the per-pair results. When no pair has a positive
value for the metric, nothing is recorded (cf. the KeyError behaviour). -/
theorem optimize_selects_first_argmax (res : Nat × ℚ → List (String × ℚ)) (m : String)
    (score : Nat × ℚ → ℚ)
    (hres : ∀ p ∈ gridParams, (res p).filter (fun e => e.1 = m) = [(m, score p)])
    (hpos : 0 < bestVal 0 (gridParams.map (fun p => (p, score p)))) :
    gridParams.Pairwise (fun a b => a.1 < b.1 ∨ (a.1 = b.1 ∧ a.2 < b.2))
    ∧ (∃ pre post p, lookupParams (optimizeFold res).2 m = some p
        ∧ gridParams = pre ++ p :: post
        ∧ score p = bestVal 0 (gridParams.map (fun q => (q, score q)))
        ∧ (∀ q ∈ gridParams, score q ≤ score p)
        ∧ (∀ q ∈ pre, score q < score p))
    ∧ (∀ res2 : Nat × ℚ → List (String × ℚ), (∀ p, res p = res2 p)
        → optimizeFold res = optimizeFold res2) := by
  refine ⟨gridParams_pairwise_lex, ?_, ?_⟩
  · have hproj := optimizeFold_projM res m score hres
    have hsel : lookupParams (optimizeFold res).2 m
        = ((gridParams.map (fun p => (p, score p))).foldl stepMax (0, none)).2 :=
      congrArg Prod.snd hproj
    have hmain := foldl_stepMax_first_argmax (gridParams.map (fun p => (p, score p)))
      (0, none) hpos
    rw [hmain, find?_map_fst] at hsel
    have hex : ∃ x ∈ gridParams.map (fun p => (p, score p)),
        x.2 = bestVal 0 (gridParams.map (fun p => (p, score p))) := by
      rcases bestVal_attained (gridParams.map (fun p => (p, score p))) 0 with h0 | hx
      · rw [h0] at hpos
        exact absurd hpos (lt_irrefl 0)
      · exact hx
    obtain ⟨x, hxmem, hxval⟩ := hex
    have hfs : (gridParams.find?
        (fun q => bestVal 0 (gridParams.map (fun p => (p, score p))) ≤ score q)).isSome := by
      rw [List.find?_isSome]
      rcases List.mem_map.mp hxmem with ⟨q, hq, rfl⟩
      exact ⟨q, hq, by simpa using le_of_eq hxval.symm⟩
    obtain ⟨p0, hp0⟩ := Option.isSome_iff_exists.mp hfs
    obtain ⟨pre, post, hsplit, hpre, hp0pred⟩ := find?_eq_some_split _ gridParams p0 hp0
    have hp0mem : p0 ∈ gridParams := by
      rw [hsplit]
      exact List.mem_append_right _ (List.mem_cons_self _ _)
    have hp0le : score p0 ≤ bestVal 0 (gridParams.map (fun p => (p, score p))) :=
      mem_le_bestVal _ 0 (p0, score p0) (List.mem_map.mpr ⟨p0, hp0mem, rfl⟩)
    have hp0ge : bestVal 0 (gridParams.map (fun p => (p, score p))) ≤ score p0 := by
      simpa using hp0pred
    have hp0B : score p0 = bestVal 0 (gridParams.map (fun p => (p, score p))) :=
      le_antisymm hp0le hp0ge
    refine ⟨pre, post, p0, by rw [hsel, hp0], hsplit, hp0B, ?_, ?_⟩
    · intro q hq
      have := mem_le_bestVal (gridParams.map (fun p => (p, score p))) 0 (q, score q)
        (List.mem_map.mpr ⟨q, hq, rfl⟩)
      rw [← hp0B] at this
      exact this
    · intro q hq
      have hnot : ¬ (bestVal 0 (gridParams.map (fun p => (p, score p))) ≤ score q) := by
        have := hpre q hq
        simpa using this
      rw [← hp0B] at hnot
      exact not_le.mp hnot
  · intro res2 h12
    have : res = res2 := funext h12
    rw [this]


theorem resW_filter_eq :
    ∀ p ∈ gridParams, (resW p).filter (fun e => e.1 = "NDCG@5") = [("NDCG@5", scoreW p)] := by
  intro p _
  simp [resW, scoreW]

theorem resW_bestVal_pos : 0 < bestVal 0 (gridParams.map (fun p => (p, scoreW p))) := by
  have hmem : ((2 : Nat), (0 : ℚ) * (5/100)) ∈ gridParams :=
    (mem_gridParams 2 ((0 : ℚ) * (5/100))).mpr ⟨by decide, by decide, 0, by decide, rfl⟩
  have hle := mem_le_bestVal (gridParams.map (fun p => (p, scoreW p))) 0
    ((2, (0 : ℚ) * (5/100)), scoreW (2, (0 : ℚ) * (5/100)))
    (List.mem_map.mpr ⟨(2, (0 : ℚ) * (5/100)), hmem, rfl⟩)
  have hone : scoreW (2, (0 : ℚ) * (5/100)) = 1 := by simp [scoreW]
  rw [hone] at hle
  exact lt_of_lt_of_le one_pos hle

/-- C1 witness: with results reporting score 1 for the metric at every pair with
limit 2 and score 0 elsewhere, the hypotheses hold and the selection picks the
first maximal pair in the lexicographic iteration order. -/
theorem optimize_selects_first_argmax_witness :
    (∀ p ∈ gridParams, (resW p).filter (fun e => e.1 = "NDCG@5") = [("NDCG@5", scoreW p)])
    ∧ 0 < bestVal 0 (gridParams.map (fun p => (p, scoreW p)))
    ∧ (∃ pre post p, lookupParams (optimizeFold resW).2 "NDCG@5" = some p
        ∧ gridParams = pre ++ p :: post
        ∧ scoreW p = bestVal 0 (gridParams.map (fun q => (q, scoreW q)))
        ∧ (∀ q ∈ gridParams, scoreW q ≤ scoreW p)
        ∧ (∀ q ∈ pre, scoreW q < scoreW p)) :=
  ⟨resW_filter_eq, resW_bestVal_pos,
    (optimize_selects_first_argmax resW "NDCG@5" scoreW resW_filter_eq resW_bestVal_pos).2.1⟩

/-- C9: if no (limit, threshold) pair attains a strictly positive score for a
metric in the best-per-metric summary (the five reported metrics), then
`best_params` holds no entry for that metric and the summary loop aborts with a
`KeyError` instead of producing its rows. -/
theorem optimize_missing_metric_raises_keyerror (res : Nat × ℚ → List (String × ℚ))
    (m : String) (hm : m ∈ fiveMetrics)
    (hres : ∀ p ∈ gridParams, ∀ e ∈ res p, e.1 = m → e.2 ≤ 0) :
    lookupParams (optimizeFold res).2 m = none
    ∧ ∀ v, printSummary (optimizeFold res) ≠ .ok v := by
  have hnone : lookupParams (optimizeFold res).2 m = none :=
    congrArg Prod.snd (optimizeFold_projM_zero res m hres)
  refine ⟨hnone, ?_⟩
  have hgen : ∀ ms : List String, m ∈ ms → ∀ v : List (String × ℚ × Nat × ℚ),
      ms.mapM (fun m' => match lookupParams (optimizeFold res).2 m' with
        | none => Except.error ("KeyError: " ++ m')
        | some p => Except.ok (m', lookupScore (optimizeFold res).1 m', p.1, p.2))
        ≠ Except.ok v := by
    intro ms
    induction ms with
    | nil => intro h; cases h
    | cons a ms ih =>
      intro hmem v
      rw [List.mapM_cons]
      rcases List.mem_cons.mp hmem with rfl | hmem'
      · rw [hnone]
        exact fun hcontr => Except.noConfusion hcontr
      · rcases hfa : lookupParams (optimizeFold res).2 a with _ | p
        · exact fun hcontr => Except.noConfusion hcontr
        · intro hcontr
          rcases hms : ms.mapM (fun m' => match lookupParams (optimizeFold res).2 m' with
              | none => Except.error ("KeyError: " ++ m')
              | some p => Except.ok (m', lookupScore (optimizeFold res).1 m', p.1, p.2))
            with e | bs
          · rw [hms] at hcontr
            exact Except.noConfusion hcontr
          · exact absurd hms (ih hmem' bs)
  intro v
  rw [printSummary]
  exact hgen fiveMetrics hm v

/-- C9 witness: with every pair reporting score 0 for NDCG@5 (as happens when
the gold set of every document is empty), `best_params` has no NDCG@5 entry. -/
theorem optimize_missing_metric_raises_keyerror_witness :
    ("NDCG@5" ∈ fiveMetrics)
    ∧ (∀ p ∈ gridParams, ∀ e ∈ (fun _ : Nat × ℚ => [("NDCG@5", (0 : ℚ))]) p,
        e.1 = "NDCG@5" → e.2 ≤ 0)
    ∧ lookupParams (optimizeFold (fun _ : Nat × ℚ => [("NDCG@5", (0 : ℚ))])).2 "NDCG@5"
        = none :=
  ⟨by decide, by simp,
    (optimize_missing_metric_raises_keyerror (fun _ => [("NDCG@5", (0 : ℚ))]) "NDCG@5"
      (by decide) (by simp)).1⟩

end Annif
